import Mathlib

/-!
Verification of the computational core of `prove_pi_limit_42_english.py`
(repository `error-wtf/CALCULATION_OF_NUMBER_PI`).

The script's core consists of physical constants, the function
`calculate_nmax` (Scale-to-Segments), the function `pi_eff` (Effective-π),
and a convergence scan over `pi_eff` for integer `N` in `[1, 100)`.
All scalar arithmetic is embedded over the real numbers `ℝ`; numpy's
special values `-inf` / `nan` produced by `np.log` on non-positive input
are modelled by an explicit sum type `NpVal`.
-/

namespace PiLimit

/-- `scipy.constants.c`: speed of light in vacuum, m/s (exact SI value). -/
def c : ℝ := 299792458

/-- `scipy.constants.G`: Newtonian constant of gravitation (CODATA value). -/
noncomputable def G : ℝ := 6.6743e-11

/-- `scipy.constants.hbar`: reduced Planck constant `h / (2π)`,
with `h = 6.62607015e-34` (exact SI value). -/
noncomputable def hbar : ℝ := 6.62607015e-34 / (2 * Real.pi)

/-- `π_classical`, imported in the script as `scipy.constants.pi`. -/
noncomputable def π_classical : ℝ := Real.pi

/-- Source line 39: `PHI = (1 + np.sqrt(5)) / 2`. -/
noncomputable def PHI : ℝ := (1 + Real.sqrt 5) / 2

/-- Source line 40: `PLANCK_LENGTH = np.sqrt(hbar * G / c**3)`. -/
noncomputable def PLANCK_LENGTH : ℝ := Real.sqrt (hbar * G / c ^ 3)

/-- Source lines 52-81, value on positive input: `calculate_nmax(s0, lambda_seg=1.0)`
returns `np.log(s0 / PLANCK_LENGTH) / np.log(PHI)`.  The default `lambda_seg = 1.0`
of the Python signature is written out explicitly at every call site below.
For `s0 > 0` the argument of `np.log` is a positive real and `np.log` is the
real natural logarithm, so the real-valued embedding is exact there (the
non-positive case is modelled separately by `calculate_nmax_np`). -/
noncomputable def calculate_nmax (s0 : ℝ) (lambda_seg : ℝ) : ℝ :=
  Real.log (s0 / PLANCK_LENGTH) / Real.log PHI

/-- Source lines 147-161: `pi_eff(N, R0=1.0, lambda_seg=1.0)` with
`s_phi = R0 * PHI**(-N)`, `R_N = R0 * np.exp(lambda_seg * N)`,
`C_N = N * s_phi`, returning `C_N / (2 * R_N)`.  The exponent `PHI**(-N)`
for real `N` is the real power of the positive base `PHI`. -/
noncomputable def pi_eff (N : ℝ) (R0 : ℝ) (lambda_seg : ℝ) : ℝ :=
  let s_phi := R0 * PHI ^ (-N)
  let R_N := R0 * Real.exp (lambda_seg * N)
  let C_N := N * s_phi
  C_N / (2 * R_N)

/-- Source line 90: `s0_answer_42 = PLANCK_LENGTH * PHI**42`. -/
noncomputable def s0_answer_42 : ℝ := PLANCK_LENGTH * PHI ^ (42 : ℕ)

/-- Source line 131: `N_max_42 = calculate_nmax(s0_answer_42)` (default `lambda_seg`). -/
noncomputable def N_max_42 : ℝ := calculate_nmax s0_answer_42 1.0

/-! ### Basic bounds on the constants -/

theorem sqrt_five_ge : (2.2 : ℝ) ≤ Real.sqrt 5 := by
  rw [show (2.2 : ℝ) = Real.sqrt (2.2 ^ 2) from (Real.sqrt_sq (by norm_num)).symm]
  exact Real.sqrt_le_sqrt (by norm_num)

theorem PHI_ge : (1.6 : ℝ) ≤ PHI := by
  have h := sqrt_five_ge
  unfold PHI
  linarith

theorem one_lt_PHI : (1 : ℝ) < PHI := lt_of_lt_of_le (by norm_num) PHI_ge

theorem PHI_pos : (0 : ℝ) < PHI := lt_trans one_pos one_lt_PHI

theorem log_PHI_pos : (0 : ℝ) < Real.log PHI := Real.log_pos one_lt_PHI

theorem hbar_pos : (0 : ℝ) < hbar := by
  unfold hbar
  positivity

theorem PLANCK_LENGTH_pos : (0 : ℝ) < PLANCK_LENGTH := by
  unfold PLANCK_LENGTH
  apply Real.sqrt_pos.mpr
  have hb := hbar_pos
  have hG : (0 : ℝ) < G := by unfold G; norm_num
  have hc : (0 : ℝ) < c ^ 3 := by unfold c; norm_num
  positivity

/-! ### Closed form and elementary behaviour of `pi_eff` at `R0 = 1`, `lambda_seg = 1` -/

theorem pi_eff_def (N R0 lam : ℝ) :
    pi_eff N R0 lam = (N * (R0 * PHI ^ (-N))) / (2 * (R0 * Real.exp (lam * N))) := rfl

theorem pi_eff_closed (N : ℝ) :
    pi_eff N 1 1 = N * Real.exp (-(N * (1 + Real.log PHI))) / 2 := by
  rw [pi_eff_def, Real.rpow_def_of_pos PHI_pos, one_mul, one_mul, one_mul]
  have h : -(N * (1 + Real.log PHI)) = Real.log PHI * -N + -N := by ring
  rw [h, Real.exp_add, Real.exp_neg]
  ring

theorem a_gt_one : (1 : ℝ) < 1 + Real.log PHI := by linarith [log_PHI_pos]

theorem exp_neg_a_lt_half : Real.exp (-(1 + Real.log PHI)) < 1 / 2 := by
  have h2 : (2 : ℝ) < Real.exp (1 + Real.log PHI) := by
    have h := Real.add_one_le_exp (1 + Real.log PHI)
    have := a_gt_one
    linarith
  rw [Real.exp_neg]
  rw [show (1 : ℝ) / 2 = 2⁻¹ by norm_num]
  exact inv_strictAnti₀ (by norm_num) h2

theorem pi_eff_succ_lt (N : ℝ) (hN : 1 ≤ N) : pi_eff (N + 1) 1 1 < pi_eff N 1 1 := by
  rw [pi_eff_closed, pi_eff_closed]
  have hexp : Real.exp (-((N + 1) * (1 + Real.log PHI))) =
      Real.exp (-(N * (1 + Real.log PHI))) * Real.exp (-(1 + Real.log PHI)) := by
    rw [← Real.exp_add]; ring_nf
  rw [hexp]
  have hpos : 0 < Real.exp (-(N * (1 + Real.log PHI))) := Real.exp_pos _
  have hhalf := exp_neg_a_lt_half
  have key : (N + 1) * Real.exp (-(1 + Real.log PHI)) < N := by
    have h1 : (N + 1) * Real.exp (-(1 + Real.log PHI)) < (N + 1) * (1 / 2) :=
      mul_lt_mul_of_pos_left hhalf (by linarith)
    linarith
  have h2 := mul_lt_mul_of_pos_right key hpos
  nlinarith

theorem pi_eff_pos (N : ℝ) (hN : 0 < N) : 0 < pi_eff N 1 1 := by
  rw [pi_eff_closed]
  positivity

theorem pi_eff_lt_half (N : ℝ) (hN : 0 ≤ N) : pi_eff N 1 1 < 1 / 2 := by
  rw [pi_eff_closed]
  have ha1 := a_gt_one
  have hlt : N < Real.exp (N * (1 + Real.log PHI)) := by
    have h1 : N * (1 + Real.log PHI) + 1 ≤ Real.exp (N * (1 + Real.log PHI)) :=
      Real.add_one_le_exp _
    nlinarith [mul_nonneg hN (by linarith : (0:ℝ) ≤ Real.log PHI)]
  have h2 : N * Real.exp (-(N * (1 + Real.log PHI))) < 1 := by
    rw [Real.exp_neg, ← div_eq_mul_inv]
    exact (div_lt_one (Real.exp_pos _)).mpr hlt
  linarith

theorem exp_twenty_a_ge : (4.32 : ℝ) ^ (20 : ℕ) ≤ Real.exp (20 * (1 + Real.log PHI)) := by
  have h : Real.exp (20 * (1 + Real.log PHI)) = (Real.exp 1 * PHI) ^ (20 : ℕ) := by
    rw [show (20 : ℝ) * (1 + Real.log PHI) = ((20 : ℕ) : ℝ) * (1 + Real.log PHI) by norm_num,
      Real.exp_nat_mul, Real.exp_add, Real.exp_log PHI_pos]
  rw [h]
  apply pow_le_pow_left₀ (by norm_num)
  have he : (2.7 : ℝ) ≤ Real.exp 1 := by
    have := Real.exp_one_gt_d9
    linarith
  have hp := PHI_ge
  nlinarith

theorem pi_eff_twenty_small : pi_eff 20 1 1 < 1e-10 := by
  rw [pi_eff_closed]
  have h := exp_twenty_a_ge
  have hpos : (0 : ℝ) < (4.32 : ℝ) ^ (20 : ℕ) := by norm_num
  have hinv : (Real.exp (20 * (1 + Real.log PHI)))⁻¹ ≤ ((4.32 : ℝ) ^ (20 : ℕ))⁻¹ :=
    inv_anti₀ hpos h
  have hnum : 20 * ((4.32 : ℝ) ^ (20 : ℕ))⁻¹ / 2 < 1e-10 := by norm_num
  rw [Real.exp_neg]
  linarith

/-! ### The inverse relationship for `calculate_nmax` -/

theorem calculate_nmax_inverts (k : ℤ) :
    calculate_nmax (PLANCK_LENGTH * PHI ^ k) 1.0 = k := by
  unfold calculate_nmax
  have hPL := PLANCK_LENGTH_pos
  have h1 : PLANCK_LENGTH * PHI ^ k / PLANCK_LENGTH = PHI ^ k := by
    field_simp
  rw [h1, Real.log_zpow]
  have hlog := log_PHI_pos
  field_simp

/-! ### numpy semantics of `calculate_nmax` on non-positive input

`np.log` does not raise on non-positive arguments: it emits a
`RuntimeWarning` and returns `-inf` for `0` and `nan` for negative input.
`NpVal` models the possible results of `np.log` on a finite real argument. -/

inductive NpVal where
  | nan : NpVal
  | neginf : NpVal
  | fin : ℝ → NpVal

/-- `np.log` on a finite real argument: `nan` on negatives (with a
`RuntimeWarning`, not an exception), `-inf` at `0` (likewise), and the real
natural logarithm on positives. -/
noncomputable def np_log (x : ℝ) : NpVal :=
  if x < 0 then NpVal.nan else if x = 0 then NpVal.neginf else NpVal.fin (Real.log x)

/-- Source lines 52-81 under numpy semantics: the quotient
`np.log(s0 / PLANCK_LENGTH)` is divided by `np.log(PHI)`, a positive finite
real, and in IEEE arithmetic dividing `-inf` or `nan` by a positive finite
number yields `-inf` or `nan` again, so the special values propagate. -/
noncomputable def calculate_nmax_np (s0 : ℝ) (lambda_seg : ℝ) : NpVal :=
  match np_log (s0 / PLANCK_LENGTH) with
  | NpVal.nan => NpVal.nan
  | NpVal.neginf => NpVal.neginf
  | NpVal.fin x => NpVal.fin (x / Real.log PHI)

/-! ### The convergence scan (source lines 164-183)

`N_range = np.arange(1, 100, 1)` is the integer list `[1, ..., 99]`;
`pi_eff_values` maps `pi_eff` (with its default `R0 = 1.0`,
`lambda_seg = 1.0`) over it; `pi_diff = np.abs(np.diff(pi_eff_values))` is
the list of absolute successive differences; `np.where(pi_diff < epsilon)[0]`
is the list of all indices whose difference is below `epsilon`, and the
script reports the first entry of that list when it is non-empty, else
prints a "Convergence not reached" warning. -/

def N_range : List ℕ := List.range' 1 99

noncomputable def pi_eff_values : List ℝ := N_range.map (fun n : ℕ => pi_eff (n : ℝ) 1 1)

/-- `np.abs(np.diff(vs))`: absolute differences of adjacent elements. -/
noncomputable def np_diff_abs (vs : List ℝ) : List ℝ :=
  List.zipWith (fun a b => |b - a|) vs vs.tail

noncomputable def pi_diff : List ℝ := np_diff_abs pi_eff_values

/-- Source line 169: `epsilon = 1e-10`. -/
noncomputable def epsilon : ℝ := 1e-10

/-- `np.where(ds < ε)[0]`: the ascending list of indices `i` with `ds[i] < ε`. -/
noncomputable def np_where_lt : List ℝ → ℝ → List ℕ
  | [], _ => []
  | d :: rest, ε =>
      if d < ε then 0 :: (np_where_lt rest ε).map (· + 1)
      else (np_where_lt rest ε).map (· + 1)

/-- Source line 170: `convergence_index = np.where(pi_diff < epsilon)[0]`. -/
noncomputable def convergence_index : List ℕ := np_where_lt pi_diff epsilon

/-- The scanner's reported outcome for an arbitrary sample sequence: the
first index whose successive difference is below the tolerance
(`convergence_index[0]` guarded by `len(convergence_index) > 0`), or `none`
("Convergence not reached", a printed warning and not an exception). -/
noncomputable def scan_convergence (vs : List ℝ) (ε : ℝ) : Option ℕ :=
  (np_where_lt (np_diff_abs vs) ε).head?

/-! ### Lemmas about the scanner -/

theorem np_where_lt_eq_nil (ds : List ℝ) (ε : ℝ) :
    np_where_lt ds ε = [] ↔ ∀ d ∈ ds, ε ≤ d := by
  induction ds with
  | nil => simp [np_where_lt]
  | cons d rest ih =>
    by_cases h : d < ε
    · simp only [np_where_lt, if_pos h]
      constructor
      · intro hc; exact absurd hc (by simp)
      · intro hall; exact absurd (hall d (by simp)) (not_le.mpr h)
    · simp only [np_where_lt, if_neg h]
      rw [List.map_eq_nil_iff, ih]
      constructor
      · intro hall x hx
        rcases List.mem_cons.mp hx with h1 | h2
        · rw [h1]; exact le_of_not_lt h
        · exact hall x h2
      · intro hall x hx
        exact hall x (List.mem_cons_of_mem _ hx)

theorem np_where_lt_head_spec (ds : List ℝ) (ε : ℝ) (i : ℕ)
    (h : (np_where_lt ds ε).head? = some i) :
    i < ds.length ∧ ds.getD i 0 < ε ∧ ∀ j, j < i → ε ≤ ds.getD j 0 := by
  induction ds generalizing i with
  | nil => simp [np_where_lt] at h
  | cons d rest ih =>
    by_cases hd : d < ε
    · simp only [np_where_lt, if_pos hd, List.head?_cons, Option.some.injEq] at h
      subst h
      refine ⟨by simp, by simpa using hd, ?_⟩
      intro j hj
      exact absurd hj (Nat.not_lt_zero j)
    · simp only [np_where_lt, if_neg hd] at h
      rw [List.head?_map] at h
      cases hh : (np_where_lt rest ε).head? with
      | none => rw [hh] at h; simp at h
      | some i0 =>
        rw [hh] at h
        simp at h
        obtain ⟨hlen, hval, hmin⟩ := ih i0 hh
        rw [← h]
        refine ⟨by simpa using Nat.succ_lt_succ hlen, by simpa using hval, ?_⟩
        intro j hj
        cases j with
        | zero => simpa using le_of_not_lt hd
        | succ j0 =>
          have hj0 : j0 < i0 := by omega
          simpa using hmin j0 hj0

theorem np_diff_abs_length (vs : List ℝ) : (np_diff_abs vs).length = vs.length - 1 := by
  unfold np_diff_abs
  rw [List.length_zipWith, List.length_tail]
  omega

theorem np_diff_abs_getD (vs : List ℝ) (i : ℕ) (h : i + 1 < vs.length) :
    (np_diff_abs vs).getD i 0 = |vs.getD (i + 1) 0 - vs.getD i 0| := by
  have hi : i < (np_diff_abs vs).length := by rw [np_diff_abs_length]; omega
  have hi1 : i < vs.length := by omega
  have hit : i < vs.tail.length := by rw [List.length_tail]; omega
  rw [List.getD_eq_getElem _ _ hi, List.getD_eq_getElem _ _ h, List.getD_eq_getElem _ _ hi1]
  unfold np_diff_abs
  rw [List.getElem_zipWith, List.getElem_tail]

theorem pi_eff_values_length : pi_eff_values.length = 99 := by
  unfold pi_eff_values N_range
  simp

theorem pi_eff_values_getD (i : ℕ) (h : i < 99) :
    pi_eff_values.getD i 0 = pi_eff ((1 + i : ℕ) : ℝ) 1 1 := by
  have hl : i < pi_eff_values.length := by rw [pi_eff_values_length]; omega
  rw [List.getD_eq_getElem _ _ hl]
  unfold pi_eff_values N_range
  rw [List.getElem_map, List.getElem_range']
  norm_num

theorem pi_diff_length : pi_diff.length = 98 := by
  unfold pi_diff
  rw [np_diff_abs_length, pi_eff_values_length]

theorem pi_diff_getD_nineteen : pi_diff.getD 19 0 = |pi_eff 21 1 1 - pi_eff 20 1 1| := by
  unfold pi_diff
  rw [np_diff_abs_getD _ _ (by rw [pi_eff_values_length]; omega)]
  rw [pi_eff_values_getD 20 (by omega), pi_eff_values_getD 19 (by omega)]
  norm_num

theorem pi_diff_nineteen_small : pi_diff.getD 19 0 < epsilon := by
  rw [pi_diff_getD_nineteen]
  have hm : pi_eff 21 1 1 < pi_eff 20 1 1 := by
    have h := pi_eff_succ_lt 20 (by norm_num)
    norm_num at h
    exact h
  have hp : (0 : ℝ) < pi_eff 21 1 1 := pi_eff_pos 21 (by norm_num)
  have hs := pi_eff_twenty_small
  rw [abs_of_neg (by linarith)]
  unfold epsilon
  linarith

/-! ### The claims -/

/-- C1: for every real segment count `N` and parameters `R0` and `lambda`,
`pi_eff` returns `circumference_N / (2 * radius_N)` where
`segment_length = R0 * φ^(-N)`, `radius_N = R0 * e^(lambda*N)`,
`circumference_N = N * segment_length`, with `φ = (1+√5)/2`. -/
theorem C1_pi_eff_contract (N R0 lam : ℝ) :
    pi_eff N R0 lam =
      let φ := (1 + Real.sqrt 5) / 2
      let segment_length := R0 * φ ^ (-N)
      let radius_N := R0 * Real.exp (lam * N)
      let circumference_N := N * segment_length
      circumference_N / (2 * radius_N) := rfl

/-- C2: for every scale `s0 > 0`, `calculate_nmax` returns
`ln(s0 / minimum_length) / ln(φ)`, where `minimum_length` is the Planck
length `sqrt(ħG/c³)` and `φ = (1+√5)/2`. -/
theorem C2_calculate_nmax_contract (s0 : ℝ) (h : 0 < s0) (lam : ℝ) :
    calculate_nmax s0 lam =
      Real.log (s0 / Real.sqrt (hbar * G / c ^ 3)) /
        Real.log ((1 + Real.sqrt 5) / 2) := rfl

/-- Witness for C2 at the concrete scale `s0 = 1` (the script's
`s0_classical`). -/
theorem C2_witness :
    (0 : ℝ) < 1 ∧
      calculate_nmax 1 1 =
        Real.log (1 / Real.sqrt (hbar * G / c ^ 3)) /
          Real.log ((1 + Real.sqrt 5) / 2) :=
  ⟨by norm_num, C2_calculate_nmax_contract 1 (by norm_num) 1⟩

/-- C3 counterexample: at `N = 50` — far past any initial transient of the
sampled range `[1, 60]` — the error with respect to `π_classical` does not
decrease from `N` to `N + 1`: the claimed inequality
`|pi_eff(N+1) − π_classical| ≤ |pi_eff(N) − π_classical|` is false. -/
theorem C3_counterexample :
    ¬ |pi_eff (50 + 1) 1 1 - π_classical| ≤ |pi_eff 50 1 1 - π_classical| := by
  have hm : pi_eff (50 + 1) 1 1 < pi_eff 50 1 1 := pi_eff_succ_lt 50 (by norm_num)
  have hhalf : pi_eff 50 1 1 < 1 / 2 := pi_eff_lt_half 50 (by norm_num)
  have hpos : (0 : ℝ) < pi_eff (50 + 1) 1 1 := pi_eff_pos (50 + 1) (by norm_num)
  have hpi : (3 : ℝ) < π_classical := Real.pi_gt_three
  rw [not_le, abs_of_neg (by linarith), abs_of_neg (by linarith)]
  linarith

/-- C3 amended: in the reference parameterization `R0 = 1`, `lambda = 1`,
the sequence `pi_eff(N)` decreases monotonically toward `0`, not toward
`π_classical`; consequently the error with respect to `π_classical` is
monotonically increasing over the sampled range: for every real `N` in
`[1, 59]`, `|pi_eff(N+1) − π_classical| ≥ |pi_eff(N) − π_classical|`. -/
theorem C3_amended_error_increases (N : ℝ) (h1 : 1 ≤ N) (h2 : N ≤ 59) :
    |pi_eff N 1 1 - π_classical| ≤ |pi_eff (N + 1) 1 1 - π_classical| := by
  have hm : pi_eff (N + 1) 1 1 < pi_eff N 1 1 := pi_eff_succ_lt N h1
  have hhalf : pi_eff N 1 1 < 1 / 2 := pi_eff_lt_half N (by linarith)
  have hpos : (0 : ℝ) < pi_eff (N + 1) 1 1 := pi_eff_pos (N + 1) (by linarith)
  have hpi : (3 : ℝ) < π_classical := Real.pi_gt_three
  rw [abs_of_neg (by linarith), abs_of_neg (by linarith)]
  linarith

/-- Witness for the amended C3 at the concrete sample `N = 5`. -/
theorem C3_witness :
    ((1 : ℝ) ≤ 5 ∧ (5 : ℝ) ≤ 59) ∧
      |pi_eff 5 1 1 - π_classical| ≤ |pi_eff (5 + 1) 1 1 - π_classical| :=
  ⟨⟨by norm_num, by norm_num⟩, C3_amended_error_increases 5 (by norm_num) (by norm_num)⟩

/-- C4 counterexample: `calculate_nmax` does not raise on non-positive
scales.  `np.log` emits a `RuntimeWarning` and yields `-inf` at `0` and
`nan` on negative input, so `calculate_nmax(0)` returns the value `-inf`
and `calculate_nmax(-1)` returns the value `nan`: both calls return,
nothing propagates, and the run is not terminated. -/
theorem C4_counterexample :
    calculate_nmax_np 0 1 = NpVal.neginf ∧ calculate_nmax_np (-1) 1 = NpVal.nan := by
  constructor
  · unfold calculate_nmax_np np_log
    rw [zero_div]
    norm_num
  · unfold calculate_nmax_np np_log
    have hneg : (-1 : ℝ) / PLANCK_LENGTH < 0 :=
      div_neg_of_neg_of_pos (by norm_num) PLANCK_LENGTH_pos
    rw [if_pos hneg]

/-- C4 amended: on a non-positive scale `calculate_nmax` returns a numpy
special value instead of raising: `-inf` when `s0 = 0` and `nan` when
`s0 < 0` (numpy prints a `RuntimeWarning`; no exception propagates and the
run continues). -/
theorem C4_amended_returns_special (s0 : ℝ) (lam : ℝ) (h : s0 ≤ 0) :
    calculate_nmax_np s0 lam = if s0 = 0 then NpVal.neginf else NpVal.nan := by
  by_cases h0 : s0 = 0
  · rw [if_pos h0, h0]
    unfold calculate_nmax_np np_log
    rw [zero_div]
    norm_num
  · rw [if_neg h0]
    have hneg : s0 / PLANCK_LENGTH < 0 :=
      div_neg_of_neg_of_pos (lt_of_le_of_ne h h0) PLANCK_LENGTH_pos
    unfold calculate_nmax_np np_log
    rw [if_pos hneg]

/-- Witness for the amended C4 at the concrete scale `s0 = 0`. -/
theorem C4_witness :
    (0 : ℝ) ≤ 0 ∧
      calculate_nmax_np 0 1 = if (0 : ℝ) = 0 then NpVal.neginf else NpVal.nan :=
  ⟨le_refl 0, C4_amended_returns_special 0 1 (le_refl 0)⟩

/-- C5: `calculate_nmax` inverts the map `k ↦ PLANCK_LENGTH * φ^k`: for
every integer `k` the result equals `k` within `1e-9` absolute tolerance
(in the exact real embedding the result is `k` exactly); in particular
`N_max_42 = calculate_nmax(s0_answer_42)` equals `42` within `1e-9`. -/
theorem C5_inverse_relationship :
    (∀ k : ℤ, |calculate_nmax (PLANCK_LENGTH * PHI ^ k) 1.0 - (k : ℝ)| ≤ 1e-9)
    ∧ |N_max_42 - 42| ≤ 1e-9 := by
  constructor
  · intro k
    rw [calculate_nmax_inverts k]
    norm_num
  · have h : N_max_42 = ((42 : ℤ) : ℝ) := by
      unfold N_max_42 s0_answer_42
      rw [show PHI ^ (42 : ℕ) = PHI ^ (42 : ℤ) from (zpow_natCast PHI 42).symm]
      exact calculate_nmax_inverts 42
    rw [h]
    norm_num

/-- C6: the convergence scan over `pi_eff(N)` for integer `N` in `[1, 100)`
with tolerance `epsilon = 1e-10` finds at least one index whose successive
absolute difference is below the tolerance: the script's
`convergence_index` array is non-empty and the reported outcome is a found
convergence point, not the "not converged" warning. -/
theorem C6_convergence_found :
    convergence_index ≠ [] ∧ ∃ i, scan_convergence pi_eff_values epsilon = some i := by
  have hlist : np_where_lt pi_diff epsilon ≠ [] := by
    rw [Ne, np_where_lt_eq_nil]
    intro hall
    have h19 : (19 : ℕ) < pi_diff.length := by rw [pi_diff_length]; omega
    have hmem : pi_diff.getD 19 0 ∈ pi_diff := by
      rw [List.getD_eq_getElem _ _ h19]
      exact List.getElem_mem h19
    exact absurd (hall _ hmem) (not_le.mpr pi_diff_nineteen_small)
  refine ⟨hlist, ?_⟩
  have hh : (np_where_lt pi_diff epsilon).head? ≠ none := by
    rw [Ne, List.head?_eq_none_iff]
    exact hlist
  exact Option.ne_none_iff_exists'.mp hh

/-- C7: for every sample sequence and tolerance, the scanner computes the
successive absolute differences `d_i = |v_{i+1} − v_i|`; when it reports an
index it is the smallest index whose difference is below the tolerance, and
it reports `none` ("not converged", a warning rather than a failure of a
total function) exactly when no difference is below the tolerance. -/
theorem C7_scan_contract (vs : List ℝ) (ε : ℝ) :
    (∀ i, i + 1 < vs.length →
        (np_diff_abs vs).getD i 0 = |vs.getD (i + 1) 0 - vs.getD i 0|)
    ∧ (∀ i, scan_convergence vs ε = some i →
        i < (np_diff_abs vs).length ∧ (np_diff_abs vs).getD i 0 < ε ∧
          ∀ j, j < i → ε ≤ (np_diff_abs vs).getD j 0)
    ∧ (scan_convergence vs ε = none ↔ ∀ d ∈ np_diff_abs vs, ε ≤ d) := by
  refine ⟨np_diff_abs_getD vs, ?_, ?_⟩
  · intro i h
    exact np_where_lt_head_spec _ _ _ h
  · unfold scan_convergence
    rw [List.head?_eq_none_iff, np_where_lt_eq_nil]

/-- C8: on an input sequence with fewer than two samples the scanner has no
successive differences to compute and reports "not converged" (`none`)
rather than raising. -/
theorem C8_short_input (vs : List ℝ) (ε : ℝ) (h : vs.length < 2) :
    scan_convergence vs ε = none := by
  unfold scan_convergence
  have hnil : np_diff_abs vs = [] := by
    unfold np_diff_abs
    match vs, h with
    | [], _ => rfl
    | [a], _ => rfl
  rw [hnil]
  rfl

/-- Witness for C8 at the concrete empty sequence. -/
theorem C8_witness :
    ([] : List ℝ).length < 2 ∧ scan_convergence ([] : List ℝ) 1 = none :=
  ⟨by simp, C8_short_input [] 1 (by simp)⟩

/-- C9: every sample of the scanned range lies strictly between `0` and
`1`, hence more than `2` below `π_classical`. -/
theorem C9_sample_bounds (n : ℕ) (h1 : 1 ≤ n) (h2 : n < 100) :
    0 < pi_eff (n : ℝ) 1 1 ∧ pi_eff (n : ℝ) 1 1 < 1 ∧
      2 < π_classical - pi_eff (n : ℝ) 1 1 := by
  have hn : (1 : ℝ) ≤ (n : ℝ) := by exact_mod_cast h1
  have hpos := pi_eff_pos (n : ℝ) (by linarith)
  have hhalf := pi_eff_lt_half (n : ℝ) (by linarith)
  have hpi : (3 : ℝ) < π_classical := Real.pi_gt_three
  exact ⟨hpos, by linarith, by linarith⟩

/-- Witness for C9 at the concrete sample `n = 42`. -/
theorem C9_witness :
    (1 ≤ 42 ∧ 42 < 100) ∧
      (0 < pi_eff ((42 : ℕ) : ℝ) 1 1 ∧ pi_eff ((42 : ℕ) : ℝ) 1 1 < 1 ∧
        2 < π_classical - pi_eff ((42 : ℕ) : ℝ) 1 1) :=
  ⟨⟨by norm_num, by norm_num⟩, C9_sample_bounds 42 (by norm_num) (by norm_num)⟩

/-- C10: `calculate_nmax` never reads its `lambda_seg` parameter, so its
result is independent of it. -/
theorem C10_lambda_seg_independent (s0 : ℝ) (lam1 lam2 : ℝ) :
    calculate_nmax s0 lam1 = calculate_nmax s0 lam2 := rfl

end PiLimit
